import Mathlib

/-!
Verification of the seer-app personalized story retrieval pipeline
(`src/lib/retrievalAgent.ts`).

The repository carries two revisions of the retrieval agent in the same
module.  `RetrievalV1` embeds the revision built around
`applyBusinessConstraints` and the parallel-batched `rerank` with relative
scoring in the 70..100 band; `RetrievalV2` embeds the revision built around
the retrying `retrieveCandidateStories` with cosine-similarity
post-processing and the batched `calculateRelevanceScores`.

Modelling conventions:
* JavaScript numbers are embedded as rationals (`ℚ`); a possibly-NaN number
  is `Option ℚ` with `none` standing for NaN (non-finite values are
  represented by the NaN marker).
* Timestamps are epoch milliseconds (`ℚ`); the ambient clock `new Date()`
  is an explicit `now` argument.
* External oracles (embedding model, document store, scoring LLM) are
  function parameters; a throwing call is an `Except.error`.
* The irrational operations `Math.sqrt` and `Math.pow (·) 0.8` are
  function parameters; theorems that need facts about them take those
  facts as hypotheses.
* JavaScript's in-place stable `Array.prototype.sort` with a numeric
  comparator `c` is embedded as `List.mergeSort` with the boolean relation
  `fun a b => c a b ≤ 0`, which is stable and agrees with any stable sort
  for a consistent comparator.
-/

/-- `Math.round` for a non-negative JavaScript number: round half up. -/
def jsRound (q : ℚ) : ℤ := ⌊q + 1/2⌋

/-- Fuel-indexed worker for `chunkList`; the fuel starts at the list
length, which suffices because each step drops at least one element. -/
def chunkListGo (n : ℕ) : ℕ → List α → List (List α)
  | _, [] => []
  | 0, l => [l]
  | fuel + 1, l@(_ :: _) =>
    if n = 0 then [l]
    else l.take n :: chunkListGo n fuel (l.drop n)

/-- Split a list into chunks of size `n` (the `chunkArray` helper /
the batching loop `for (i = 0; i < stories.length; i += BATCH)`). -/
def chunkList (n : ℕ) (l : List α) : List (List α) :=
  chunkListGo n l.length l

/-- `String.toLowerCase`, char by char. -/
def toLowerChars (s : String) : String :=
  String.mk (s.data.map Char.toLower)

/-- `String.trim`: drop whitespace from both ends, char by char. -/
def trimChars (s : String) : String :=
  String.mk (((s.data.dropWhile Char.isWhitespace).reverse.dropWhile
    Char.isWhitespace).reverse)

/-- `new Map(list.map(x => [key x, x])).get k`: later entries overwrite
earlier ones, so lookup returns the last matching element. -/
def lastLookup (key : α → String) (l : List α) (k : String) : Option α :=
  l.reverse.find? (fun x => key x == k)

/-- Map with the JavaScript callback index, starting at `i`. -/
def mapWithIndexFrom (f : ℕ → α → β) : ℕ → List α → List β
  | _, [] => []
  | i, a :: t => f i a :: mapWithIndexFrom f (i + 1) t

/-- `list.map((x, index) => f index x)`. -/
def mapWithIndex (f : ℕ → α → β) (l : List α) : List β :=
  mapWithIndexFrom f 0 l

/-- A story embedding as delivered by the store: either a string-encoded
vector or a numeric array whose entries may be NaN (`none`). -/
inductive EmbVal where
  | str (s : String)
  | arr (xs : List (Option ℚ))
  deriving DecidableEq, Repr

/-- The `DatabaseStory` row shape (fields relevant to the pipeline).
`published_at` is epoch milliseconds; `similarity_score` is the derived
field attached by retrieval post-processing. -/
structure Story where
  id : String
  title : String
  content : Option String := none
  tags : List String := []
  published_at : ℚ
  source_name : Option String := none
  embedding : Option EmbVal := none
  similarity_score : Option ℚ := none
  deriving DecidableEq, Repr

/-- The `UserPreferences` payload. -/
structure UserPreferences where
  role : String
  interests : List String
  projects : String
  timestamp : String := ""
  deriving DecidableEq, Repr

namespace RetrievalV1

/-! ## Configuration constants (first revision `CONFIG`) -/

def MATCH_THRESHOLD : ℚ := 4/10
def TOP_K_CANDIDATES : ℕ := 50
def MAX_PER_SOURCE : ℕ := 10
def FINAL_RESULTS_LIMIT : ℕ := 30
def FRESHNESS_DECAY_DAYS : ℚ := 14
def BLOCKLISTED_SOURCES : List String := []
def RELATIVE_SCORE_MIN : ℚ := 70
def RELATIVE_SCORE_MAX : ℚ := 100
def LLM_RANKING_LIMIT : ℕ := 30
def PARALLEL_BATCH_SIZE : ℕ := 10

/-! ## Constraint Filter (`applyBusinessConstraints`) -/

/-- `story.title.toLowerCase().trim()`. -/
def normalizedTitle (st : Story) : String := trimChars (toLowerChars st.title)

/-- `story.source_name || 'unknown'` (JavaScript `||`: absent or empty
string both fall back to `'unknown'`). -/
def sourceNameOf (st : Story) : String :=
  match st.source_name with
  | none => "unknown"
  | some s => if s = "" then "unknown" else s

/-- The mutable closure state of the `stories.filter(...)` pass:
`seenIds`, `seenTitles` and `sourceCount`. -/
structure FilterState where
  seenIds : List String
  seenTitles : List String
  sourceCount : String → ℕ

def initialFilterState : FilterState :=
  { seenIds := [], seenTitles := [], sourceCount := fun _ => 0 }

/-- One evaluation of the filter callback: returns whether the story is
kept together with the updated closure state.  Mutations happen exactly
where the source mutates: the id is recorded before the title check, the
title before the source-cap check, and the source counter before the
blocklist check. -/
def stepFilter (st : FilterState) (story : Story) : Bool × FilterState :=
  if story.id ∈ st.seenIds then (false, st)
  else if normalizedTitle story ∈ st.seenTitles then
    (false, { st with seenIds := story.id :: st.seenIds })
  else if MAX_PER_SOURCE ≤ st.sourceCount (sourceNameOf story) then
    (false, { st with seenIds := story.id :: st.seenIds
                      seenTitles := normalizedTitle story :: st.seenTitles })
  else if toLowerChars (sourceNameOf story) ∈ BLOCKLISTED_SOURCES then
    (false, { seenIds := story.id :: st.seenIds
              seenTitles := normalizedTitle story :: st.seenTitles
              sourceCount := fun x => if x = sourceNameOf story then
                st.sourceCount (sourceNameOf story) + 1 else st.sourceCount x })
  else
    (true, { seenIds := story.id :: st.seenIds
             seenTitles := normalizedTitle story :: st.seenTitles
             sourceCount := fun x => if x = sourceNameOf story then
               st.sourceCount (sourceNameOf story) + 1 else st.sourceCount x })

/-- The `stories.filter(...)` pass, threading the closure state. -/
def runFilter (st : FilterState) : List Story → List Story
  | [] => []
  | story :: rest =>
    match stepFilter st story with
    | (true, st') => story :: runFilter st' rest
    | (false, st') => runFilter st' rest

/-- Freshness score `Math.max(0, 1 - age / decayWindow)` (0..1). -/
def freshness (now : ℚ) (st : Story) : ℚ :=
  max 0 (1 - (now - st.published_at) / (FRESHNESS_DECAY_DAYS * 24 * 60 * 60 * 1000))

/-- The freshness comparator `(a, b) => (bFreshness - aFreshness) * 0.3`. -/
def freshnessCmp (now : ℚ) (a b : Story) : ℚ :=
  (freshness now b - freshness now a) * (3/10)

/-- `applyBusinessConstraints`: filter/deduplicate, then stable-sort by the
freshness comparator. -/
def applyBusinessConstraints (now : ℚ) (stories : List Story) : List Story :=
  let filteredStories := runFilter initialFilterState stories
  filteredStories.mergeSort (fun a b => decide (freshnessCmp now a b ≤ 0))

/-! ## Relevance Scorer (`rerank`, parallel-batched with relative scoring) -/

/-- One item of the LLM structured output (`StoryRankingSchema`). -/
structure Ranking where
  story_id : String
  relevance_score : ℚ
  summary : String
  explanation : String
  deriving DecidableEq, Repr

/-- One entry of a batch result before relative re-scoring. -/
structure BatchEntry where
  story : Story
  original_relevance_score : ℚ
  summary : String
  explanation : String
  deriving DecidableEq, Repr

/-- One entry of the final reranked output; the relative score is an
integer because it comes out of `Math.round`. -/
structure RankedStory where
  story : Story
  relevance_score : ℤ
  summary : String
  explanation : String
  deriving DecidableEq, Repr

/-- `processBatch` after the oracle call: map the returned rankings back to
the stories of the batch through the batch-local id map, dropping rankings
whose id matches no story. -/
def mapBatchRankings (batch : List Story) (rankings : List Ranking) : List BatchEntry :=
  rankings.filterMap (fun r =>
    match lastLookup Story.id batch r.story_id with
    | none => none
    | some story =>
      some { story := story
             original_relevance_score := r.relevance_score
             summary := r.summary
             explanation := r.explanation })

/-- The `seenStoryIds` uniqueness pass over the merged batch results
(first occurrence wins). -/
def dedupByStoryId (seen : List String) : List BatchEntry → List BatchEntry
  | [] => []
  | e :: rest =>
    if e.story.id ∈ seen then dedupByStoryId seen rest
    else e :: dedupByStoryId (e.story.id :: seen) rest

/-- The positional relative score
`Math.round(MAX - pow(index / max(1, len - 1), 0.8) * (MAX - MIN))`;
`pow08` models `p ↦ Math.pow(p, 0.8)`. -/
def relativeScoreAt (pow08 : ℚ → ℚ) (len : ℕ) (index : ℕ) : ℤ :=
  let position : ℚ := (index : ℚ) / max 1 ((len : ℚ) - 1)
  let curvedPosition := pow08 position
  jsRound (RELATIVE_SCORE_MAX - curvedPosition * (RELATIVE_SCORE_MAX - RELATIVE_SCORE_MIN))

/-- The fallback positional score of the catch branch: the denominator is
the fixed `FINAL_RESULTS_LIMIT - 1`. -/
def fallbackScoreAt (pow08 : ℚ → ℚ) (index : ℕ) : ℤ :=
  let position : ℚ := (index : ℚ) / ((FINAL_RESULTS_LIMIT : ℚ) - 1)
  let curvedPosition := pow08 position
  jsRound (RELATIVE_SCORE_MAX - curvedPosition * (RELATIVE_SCORE_MAX - RELATIVE_SCORE_MIN))

/-- `rerank`: take the top `LLM_RANKING_LIMIT` stories, batch them, send
every batch to the scoring oracle, merge, deduplicate, sort by descending
LLM score (stable), truncate to `FINAL_RESULTS_LIMIT`, and re-scale by
position.  If any batch call throws, the whole stage falls back to the
catch branch, which scores the top `LLM_RANKING_LIMIT` stories purely by
position. -/
def rerank (pow08 : ℚ → ℚ)
    (oracle : UserPreferences → List Story → Except String (List Ranking))
    (userPrefs : UserPreferences) (stories : List Story) : List RankedStory :=
  let topStories := stories.take LLM_RANKING_LIMIT
  let batches := chunkList PARALLEL_BATCH_SIZE topStories
  match batches.mapM (fun b => (oracle userPrefs b).map (mapBatchRankings b)) with
  | .ok batchResults =>
    let allBatchResults := batchResults.flatten
    let llmRankedResults :=
      ((dedupByStoryId [] allBatchResults).mergeSort
        (fun a b => decide (b.original_relevance_score - a.original_relevance_score ≤ 0))).take
        FINAL_RESULTS_LIMIT
    mapWithIndex (fun index result =>
      { story := result.story
        relevance_score := relativeScoreAt pow08 llmRankedResults.length index
        summary := result.summary
        explanation := result.explanation }) llmRankedResults
  | .error _ =>
    let fallbackStories := stories.take LLM_RANKING_LIMIT
    mapWithIndex (fun index story =>
      { story := story
        relevance_score := fallbackScoreAt pow08 index
        summary := "This story appears relevant to your interests based on semantic similarity."
        explanation := "Story was selected using semantic search but could not be analyzed in detail due to processing limitations." }) fallbackStories

end RetrievalV1

namespace RetrievalV2

/-! ## Configuration constants (second revision `CONFIG`) -/

def MATCH_THRESHOLD : ℚ := 4/10
def TOP_K_CANDIDATES : ℕ := 35
def FINAL_RESULTS_LIMIT : ℕ := 30
def FRESHNESS_DECAY_DAYS : ℚ := 14
def RECENCY_BOOST_POINTS : ℚ := 5
def LLM_BATCH_SIZE : ℕ := 15

/-! ## Embedding parsing and cosine similarity -/

/-- Accumulate decimal digits into a natural number. -/
def digitsToNat (cs : List Char) : ℕ :=
  cs.foldl (fun acc c => acc * 10 + (c.toNat - '0'.toNat)) 0

/-- `parseFloat` on an already-trimmed character list, modelled for
decimal literals: optional sign, integer digits, optional fractional
digits (`"12"`, `"-3.5"`, `".25"`).  Exponents and `Infinity` are not
modelled; any input without a parsable numeric prefix yields NaN
(`none`). -/
def parseFloatQ (chars : List Char) : Option ℚ :=
  let (sign, cs) : ℚ × List Char :=
    match chars with
    | '+' :: r => (1, r)
    | '-' :: r => (-1, r)
    | r => (1, r)
  let intPart := cs.takeWhile Char.isDigit
  let rest := cs.dropWhile Char.isDigit
  let fracPart :=
    match rest with
    | '.' :: r => r.takeWhile Char.isDigit
    | _ => []
  if intPart = [] ∧ fracPart = [] then none
  else some (sign * ((digitsToNat intPart : ℚ) +
    (digitsToNat fracPart : ℚ) / ((10 : ℚ) ^ fracPart.length)))

/-- `embStr.replace(/[\x5b\x5d]/g, '')`: drop every bracket character. -/
def stripBrackets (cs : List Char) : List Char :=
  cs.filter (fun c => ¬ (c = '[' ∨ c = ']'))

/-- `String.split(',')`: splitting the empty string yields one empty
field, exactly as in JavaScript. -/
def splitOnComma : List Char → List (List Char)
  | [] => [[]]
  | c :: r =>
    if c = ',' then [] :: splitOnComma r
    else
      match splitOnComma r with
      | [] => [[c]]
      | g :: gs => (c :: g) :: gs

/-- `trim` on a character list (both ends). -/
def trimCharList (cs : List Char) : List Char :=
  ((cs.dropWhile Char.isWhitespace).reverse.dropWhile Char.isWhitespace).reverse

/-- The string branch of embedding normalization:
`replace(brackets).split(',').map(v => parseFloat(v.trim()))`. -/
def parseEmbeddingString (s : String) : List (Option ℚ) :=
  (splitOnComma (stripBrackets s.data)).map (fun v => parseFloatQ (trimCharList v))

/-- The numeric entries of an embedding value as the JavaScript code sees
them after the string/array branch (entries may be NaN = `none`). -/
def embNums : EmbVal → List (Option ℚ)
  | .str s => parseEmbeddingString s
  | .arr xs => xs

/-- `calculateCosineSimilarity`: 0 on dimension mismatch or a zero norm,
otherwise `dot / (|a| * |b|)`.  `sqrt` models `Math.sqrt`. -/
def calculateCosineSimilarity (sqrt : ℚ → ℚ) (vecA vecB : List ℚ) : ℚ :=
  if vecA.length ≠ vecB.length then 0
  else
    let dotProduct := (vecA.zip vecB).foldl (fun acc p => acc + p.1 * p.2) 0
    let normA := sqrt (vecA.foldl (fun acc x => acc + x * x) 0)
    let normB := sqrt (vecB.foldl (fun acc x => acc + x * x) 0)
    if normA = 0 ∨ normB = 0 then 0
    else dotProduct / (normA * normB)

/-- The per-story similarity assignment inside `retrieveCandidateStories`:
missing embedding, empty vector, or any NaN component yields similarity 0;
otherwise the cosine similarity with the user embedding, clamped to
`[0, 1]`. -/
def assignSimilarity (sqrt : ℚ → ℚ) (userEmbedding : List ℚ) (story : Story) : Story :=
  match story.embedding with
  | none => { story with similarity_score := some 0 }
  | some e =>
    let storyEmbedding := embNums e
    if storyEmbedding.length = 0 ∨ storyEmbedding.any Option.isNone then
      { story with similarity_score := some 0 }
    else
      let vec := storyEmbedding.reduceOption
      let similarity := calculateCosineSimilarity sqrt userEmbedding vec
      { story with similarity_score := some (max 0 (min 1 similarity)) }

/-- The post-processing of a successful store response: attach similarity
scores, keep only threshold survivors, truncate to `limit`. -/
def postProcessStories (sqrt : ℚ → ℚ) (userEmbedding : List ℚ) (limit : ℕ)
    (data : List Story) : List Story :=
  (((data.map (assignSimilarity sqrt userEmbedding)).filter
    (fun story => decide (MATCH_THRESHOLD ≤ story.similarity_score.getD 0))).take limit)

/-! ## Candidate Retriever with retry (`retrieveCandidateStories`) -/

/-- A document-store RPC outcome: rows, or an error carrying the Postgres
error code. -/
inductive DbResult where
  | ok (data : List Story)
  | err (code : Option String)

def MAX_RETRIES : ℕ := 2

def retryFailureMessage : String :=
  "Failed to retrieve candidate stories after retries"

/-- The body of the retry `for` loop of `retrieveCandidateStories`.
`db` maps the attempt number (1-based) to the store response; the second
component of the result accumulates the milliseconds spent in
`setTimeout` backoffs.  A `57014` (statement timeout) error with retries
left sleeps one second and retries; any other error is thrown, but the
`throw` lands in the loop's own `catch`, which also sleeps one second and
retries while attempts remain. -/
def retrieveLoop (db : ℕ → DbResult) (sqrt : ℚ → ℚ) (userEmbedding : List ℚ)
    (limit : ℕ) : (fuel : ℕ) → (attempt : ℕ) → Except String (List Story) × ℕ
  | 0, _ => (.error retryFailureMessage, 0)
  | fuel + 1, attempt =>
    match db attempt with
    | .err code =>
      if code = some "57014" ∧ attempt < MAX_RETRIES then
        let (r, ms) := retrieveLoop db sqrt userEmbedding limit fuel (attempt + 1)
        (r, ms + 1000)
      else if attempt < MAX_RETRIES then
        let (r, ms) := retrieveLoop db sqrt userEmbedding limit fuel (attempt + 1)
        (r, ms + 1000)
      else (.error retryFailureMessage, 0)
    | .ok data => (.ok (postProcessStories sqrt userEmbedding limit data), 0)

/-- `retrieveCandidateStories` with its default `limit`. -/
def retrieveCandidateStories (db : ℕ → DbResult) (sqrt : ℚ → ℚ)
    (userEmbedding : List ℚ) (limit : ℕ := TOP_K_CANDIDATES) :
    Except String (List Story) × ℕ :=
  retrieveLoop db sqrt userEmbedding limit MAX_RETRIES 1

/-! ## Relevance scoring (`calculateRelevanceScores`) -/

/-- One item of the LLM structured output (`StoryRelevanceSchema`). -/
structure Ranking where
  story_id : String
  relevance_score : ℚ
  deriving DecidableEq, Repr

/-- A scored story, the shape returned by `calculateRelevanceScores`
(the logging-only `debug_scores` record is omitted; it is stripped before
the function returns and influences nothing). -/
structure ScoredStory where
  story : Story
  relevance_score : ℚ
  deriving DecidableEq, Repr

/-- The recency boost
`Math.round(Math.max(0, (1 - ageInDays / FRESHNESS_DECAY_DAYS) * RECENCY_BOOST_POINTS))`
where `ageInDays = (now - publishedAt) / 86400000`. -/
def recencyBoost (now : ℚ) (story : Story) : ℤ :=
  let ageInDays := (now - story.published_at) / (1000 * 60 * 60 * 24)
  jsRound (max 0 ((1 - ageInDays / FRESHNESS_DECAY_DAYS) * RECENCY_BOOST_POINTS))

/-- The composite score `Math.max(1, Math.min(100, llmScore + recencyBoost))`. -/
def scoreStory (now : ℚ) (llmScore : ℚ) (story : Story) : ℚ :=
  max 1 (min 100 (llmScore + (recencyBoost now story : ℚ)))

/-- `a.story.id.localeCompare(b.story.id)` modelled as lexicographic
comparison returning -1/0/1. -/
def localeCompareQ (a b : String) : ℚ :=
  if a < b then -1 else if b < a then 1 else 0

/-- The sort comparator of `calculateRelevanceScores`: score difference
descending, ties broken by id. -/
def rankCmp (a b : ScoredStory) : ℚ :=
  let scoreDiff := b.relevance_score - a.relevance_score
  if scoreDiff ≠ 0 then scoreDiff else localeCompareQ a.story.id b.story.id

/-- The final `sort(...).slice(0, FINAL_RESULTS_LIMIT)` of the scoring
stage (stable sort under the comparator `rankCmp`). -/
def sortAndLimit (l : List ScoredStory) : List ScoredStory :=
  (l.mergeSort (fun a b => decide (rankCmp a b ≤ 0))).take FINAL_RESULTS_LIMIT

/-- `calculateRelevanceScores`: batch the stories, score every batch with
the oracle (a failed batch contributes an empty ranking list through its
own `catch`), drop rankings with a falsy id, map rankings back to stories
with the composite score, sort with deterministic tie-breaking and
truncate.  The enclosing `try/catch`'s similarity fallback is modelled
separately (`similarityFallback`) because no oracle failure can reach it:
every batch failure is absorbed by the per-batch `catch`. -/
def calculateRelevanceScores
    (oracle : UserPreferences → List Story → Except String (List Ranking))
    (now : ℚ) (userPrefs : UserPreferences) (stories : List Story) :
    List ScoredStory :=
  let batches := chunkList LLM_BATCH_SIZE stories
  let batchResults := batches.map (fun batch =>
    match oracle userPrefs batch with
    | .ok rankings => rankings
    | .error _ => [])
  let allRankings := batchResults.flatten.filter (fun r => r.story_id ≠ "")
  let scoredStories := allRankings.filterMap (fun ranking =>
    match lastLookup Story.id stories ranking.story_id with
    | none => none
    | some story =>
      some { story := story
             relevance_score := scoreStory now ranking.relevance_score story })
  sortAndLimit scoredStories

/-- The `catch` branch of `calculateRelevanceScores`: similarity-based
scoring with the same recency boost, sort and truncation. -/
def similarityFallback (now : ℚ) (stories : List Story) : List ScoredStory :=
  sortAndLimit (stories.map (fun story =>
    { story := story
      relevance_score :=
        max 1 (min 100 ((jsRound ((story.similarity_score.getD (1/2)) * 100) : ℚ) +
          (recencyBoost now story : ℚ))) }))

/-! ## Orchestrator (`retrievePersonalizedStories`) -/

/-- The final feed item. -/
structure PersonalizedStory where
  story : Story
  relevance_score : ℚ
  time : String
  deriving DecidableEq, Repr

/-- `getRelativeTime`: render the age of a story as a relative-time
string. -/
def getRelativeTime (now published : ℚ) : String :=
  let diffInMs := now - published
  let diffInHours : ℤ := ⌊diffInMs / (1000 * 60 * 60)⌋
  let diffInDays : ℤ := ⌊(diffInHours : ℚ) / 24⌋
  if 0 < diffInDays then
    toString diffInDays ++ " day" ++ (if 1 < diffInDays then "s" else "") ++ " ago"
  else if 0 < diffInHours then
    toString diffInHours ++ " hour" ++ (if 1 < diffInHours then "s" else "") ++ " ago"
  else
    let diffInMinutes : ℤ := ⌊diffInMs / (1000 * 60)⌋
    toString (max 1 diffInMinutes) ++ " minute" ++
      (if diffInMinutes ≠ 1 then "s" else "") ++ " ago"

/-- `generateUserEmbedding`: delegate to the embedding oracle, wrapping
any failure. -/
def generateUserEmbedding
    (embedOracle : UserPreferences → Except String (List ℚ))
    (userPrefs : UserPreferences) : Except String (List ℚ) :=
  match embedOracle userPrefs with
  | .ok embedding => .ok embedding
  | .error _ => .error "Failed to generate user embedding"

def pipelineFailureMessage (m : String) : String :=
  "Failed to retrieve personalized stories: " ++ m

/-- `retrievePersonalizedStories`: embed the profile, retrieve candidates,
return the empty list on zero candidates, score, and attach the relative
time.  Failures of the embedding or retrieval stage are wrapped into the
single pipeline error. -/
def retrievePersonalizedStories
    (embedOracle : UserPreferences → Except String (List ℚ))
    (db : ℕ → DbResult) (sqrt : ℚ → ℚ)
    (llmOracle : UserPreferences → List Story → Except String (List Ranking))
    (now : ℚ) (userPrefs : UserPreferences) :
    Except String (List PersonalizedStory) :=
  match generateUserEmbedding embedOracle userPrefs with
  | .error m => .error (pipelineFailureMessage m)
  | .ok userEmbedding =>
    match (retrieveCandidateStories db sqrt userEmbedding).1 with
    | .error m => .error (pipelineFailureMessage m)
    | .ok candidateStories =>
      if candidateStories.length = 0 then .ok []
      else
        let rankedResults := calculateRelevanceScores llmOracle now userPrefs candidateStories
        .ok (rankedResults.map (fun result =>
          { story := result.story
            relevance_score := result.relevance_score
            time := getRelativeTime now result.story.published_at }))


end RetrievalV2

/-! # Helper lemmas -/

theorem jsRound_le {q : ℚ} {b : ℤ} (h : q ≤ (b : ℚ)) : jsRound q ≤ b := by
  have : jsRound q < b + 1 := by
    rw [jsRound, Int.floor_lt]
    push_cast
    linarith
  omega

theorem le_jsRound {q : ℚ} {a : ℤ} (h : (a : ℚ) ≤ q) : a ≤ jsRound q := by
  rw [jsRound, Int.le_floor]
  linarith

theorem mem_mapWithIndexFrom {f : ℕ → α → β} :
    ∀ {l : List α} {i : ℕ} {b : β}, b ∈ mapWithIndexFrom f i l →
      ∃ j a, j < l.length ∧ a ∈ l ∧ b = f (i + j) a := by
  intro l
  induction l with
  | nil => intro i b h; simp [mapWithIndexFrom] at h
  | cons x t ih =>
    intro i b h
    simp only [mapWithIndexFrom, List.mem_cons] at h
    rcases h with h | h
    · exact ⟨0, x, by simp, by simp, by simpa using h⟩
    · obtain ⟨j, a, hj, ha, hb⟩ := ih h
      refine ⟨j + 1, a, by simp; omega, by simp [ha], ?_⟩
      rw [hb]
      ring_nf

theorem mem_mapWithIndex {f : ℕ → α → β} {l : List α} {b : β}
    (h : b ∈ mapWithIndex f l) : ∃ j a, j < l.length ∧ a ∈ l ∧ b = f j a := by
  obtain ⟨j, a, hj, ha, hb⟩ := mem_mapWithIndexFrom h
  exact ⟨j, a, hj, ha, by simpa using hb⟩

theorem countP_le_one_of_pairwise_ne {f : α → β} [DecidableEq β] :
    ∀ {l : List α}, l.Pairwise (fun a b => f a ≠ f b) → ∀ x : β,
      l.countP (fun d => decide (f d = x)) ≤ 1 := by
  intro l
  induction l with
  | nil => intro _ x; simp
  | cons a t ih =>
    intro h x
    rcases List.pairwise_cons.1 h with ⟨ha, ht⟩
    rw [List.countP_cons]
    by_cases hax : f a = x
    · have : t.countP (fun d => decide (f d = x)) = 0 := by
        rw [List.countP_eq_zero]
        intro b hb
        simp only [decide_eq_true_eq]
        exact fun hbx => ha b hb (hax ▸ hbx ▸ rfl)
      simp [this, hax]
    · simp only [hax, decide_eq_false hax]
      simpa using ih ht x

/-- Two sorted permutations of each other are equal, provided the sort
relation is antisymmetric on the members of the lists. -/
theorem sorted_perm_eq {le : α → α → Bool} :
    ∀ {l₁ l₂ : List α}, l₁.Perm l₂ →
      l₁.Pairwise (fun a b => le a b = true) →
      l₂.Pairwise (fun a b => le a b = true) →
      (∀ a b, a ∈ l₁ → b ∈ l₁ → le a b = true → le b a = true → a = b) →
      l₁ = l₂ := by
  intro l₁
  induction l₁ with
  | nil => intro l₂ hp _ _ _; simpa using hp.nil_eq.symm
  | cons a t₁ ih =>
    intro l₂ hp hs₁ hs₂ hanti
    cases l₂ with
    | nil => exact absurd hp.symm (by simp)
    | cons b t₂ =>
      have hab : a = b := by
        by_contra hne
        have hamem : a ∈ b :: t₂ := hp.mem_iff.1 (by simp)
        have hat₂ : a ∈ t₂ := by
          rcases List.mem_cons.1 hamem with h | h
          · exact absurd h hne
          · exact h
        have hbmem : b ∈ a :: t₁ := hp.symm.mem_iff.1 (by simp)
        have hbt₁ : b ∈ t₁ := by
          rcases List.mem_cons.1 hbmem with h | h
          · exact absurd h.symm hne
          · exact h
        have h1 : le a b = true := (List.pairwise_cons.1 hs₁).1 b hbt₁
        have h2 : le b a = true := (List.pairwise_cons.1 hs₂).1 a hat₂
        exact hne (hanti a b (by simp) (by simp [hbt₁]) h1 h2)
      subst hab
      have hperm : t₁.Perm t₂ := hp.cons_inv
      have := ih hperm (List.pairwise_cons.1 hs₁).2 (List.pairwise_cons.1 hs₂).2
        (fun x y hx hy hxy hyx => hanti x y (by simp [hx]) (by simp [hy]) hxy hyx)
      rw [this]

namespace RetrievalV1

theorem stepFilter_true {st : FilterState} {story : Story}
    (h : (stepFilter st story).1 = true) :
    story.id ∉ st.seenIds ∧ normalizedTitle story ∉ st.seenTitles ∧
    st.sourceCount (sourceNameOf story) < MAX_PER_SOURCE ∧
    (stepFilter st story).2.seenIds = story.id :: st.seenIds ∧
    (stepFilter st story).2.seenTitles = normalizedTitle story :: st.seenTitles ∧
    (stepFilter st story).2.sourceCount = fun x =>
      if x = sourceNameOf story then st.sourceCount (sourceNameOf story) + 1
      else st.sourceCount x := by
  unfold stepFilter at h ⊢
  split_ifs at h ⊢ with h1 h2 h3 h4
  simp_all

theorem stepFilter_seenIds_subset (st : FilterState) (story : Story) :
    st.seenIds ⊆ (stepFilter st story).2.seenIds := by
  unfold stepFilter
  split_ifs <;> simp [List.subset_cons_self]

theorem stepFilter_seenTitles_subset (st : FilterState) (story : Story) :
    st.seenTitles ⊆ (stepFilter st story).2.seenTitles := by
  unfold stepFilter
  split_ifs <;> simp [List.subset_cons_self]

theorem stepFilter_sourceCount_le (st : FilterState) (story : Story) (s : String) :
    st.sourceCount s ≤ (stepFilter st story).2.sourceCount s := by
  unfold stepFilter
  split_ifs <;> simp <;> split_ifs <;> simp_all

theorem mem_runFilter_id : ∀ (l : List Story) (st : FilterState) (d : Story),
    d ∈ runFilter st l → d.id ∉ st.seenIds := by
  intro l
  induction l with
  | nil => intro st d h; simp [runFilter] at h
  | cons story rest ih =>
    intro st d h
    rw [runFilter] at h
    rcases hstep : stepFilter st story with ⟨keep, st'⟩
    rw [hstep] at h
    cases keep with
    | true =>
      obtain ⟨hid, _, _, hids, _, _⟩ := stepFilter_true (by rw [hstep])
      rcases List.mem_cons.1 h with rfl | h
      · exact hid
      · intro hd
        have := ih st' d h
        rw [hstep] at hids
        exact this (hids ▸ List.mem_cons_of_mem _ hd)
    | false =>
      intro hd
      exact ih st' d h
        ((hstep ▸ stepFilter_seenIds_subset st story) hd)

theorem mem_runFilter_title : ∀ (l : List Story) (st : FilterState) (d : Story),
    d ∈ runFilter st l → normalizedTitle d ∉ st.seenTitles := by
  intro l
  induction l with
  | nil => intro st d h; simp [runFilter] at h
  | cons story rest ih =>
    intro st d h
    rw [runFilter] at h
    rcases hstep : stepFilter st story with ⟨keep, st'⟩
    rw [hstep] at h
    cases keep with
    | true =>
      obtain ⟨_, htitle, _, _, htitles, _⟩ := stepFilter_true (by rw [hstep])
      rcases List.mem_cons.1 h with rfl | h
      · exact htitle
      · intro hd
        have := ih st' d h
        rw [hstep] at htitles
        exact this (htitles ▸ List.mem_cons_of_mem _ hd)
    | false =>
      intro hd
      exact ih st' d h
        ((hstep ▸ stepFilter_seenTitles_subset st story) hd)

theorem runFilter_pairwise_id : ∀ (l : List Story) (st : FilterState),
    (runFilter st l).Pairwise (fun a b => a.id ≠ b.id) := by
  intro l
  induction l with
  | nil => intro st; simp [runFilter]
  | cons story rest ih =>
    intro st
    rw [runFilter]
    rcases hstep : stepFilter st story with ⟨keep, st'⟩
    cases keep with
    | true =>
      refine List.pairwise_cons.2 ⟨?_, ih st'⟩
      intro b hb heq
      obtain ⟨_, _, _, hids, _, _⟩ := stepFilter_true (by rw [hstep])
      have := mem_runFilter_id rest st' b hb
      rw [hstep] at hids
      exact this (hids ▸ (heq ▸ List.mem_cons_self _ _))
    | false => exact ih st'

theorem runFilter_pairwise_title : ∀ (l : List Story) (st : FilterState),
    (runFilter st l).Pairwise (fun a b => normalizedTitle a ≠ normalizedTitle b) := by
  intro l
  induction l with
  | nil => intro st; simp [runFilter]
  | cons story rest ih =>
    intro st
    rw [runFilter]
    rcases hstep : stepFilter st story with ⟨keep, st'⟩
    cases keep with
    | true =>
      refine List.pairwise_cons.2 ⟨?_, ih st'⟩
      intro b hb heq
      obtain ⟨_, _, _, _, htitles, _⟩ := stepFilter_true (by rw [hstep])
      have := mem_runFilter_title rest st' b hb
      rw [hstep] at htitles
      exact this (htitles ▸ (heq ▸ List.mem_cons_self _ _))
    | false => exact ih st'

theorem countP_runFilter_source : ∀ (l : List Story) (st : FilterState) (s : String),
    (runFilter st l).countP (fun d => decide (sourceNameOf d = s)) ≤
      MAX_PER_SOURCE - st.sourceCount s := by
  intro l
  induction l with
  | nil => intro st s; simp [runFilter]
  | cons story rest ih =>
    intro st s
    rcases hstep : stepFilter st story with ⟨keep, st'⟩
    cases keep with
    | true =>
      obtain ⟨_, _, hlt, _, _, hcnt⟩ := stepFilter_true (by rw [hstep])
      rw [hstep] at hcnt
      have hcnt2 : st'.sourceCount = fun x =>
          if x = sourceNameOf story then st.sourceCount (sourceNameOf story) + 1
          else st.sourceCount x := hcnt
      have hrest := ih st' s
      simp only [runFilter, hstep, List.countP_cons]
      by_cases hs : sourceNameOf story = s
      · have hst' : st'.sourceCount s = st.sourceCount s + 1 := by
          rw [hcnt2]; simp [hs.symm]
        rw [hst'] at hrest
        have hlt' : st.sourceCount s < MAX_PER_SOURCE := hs ▸ hlt
        simp only [hs]
        norm_num
        omega
      · have hst' : st'.sourceCount s = st.sourceCount s := by
          rw [hcnt2]
          exact if_neg (fun h : s = sourceNameOf story => hs h.symm)
        rw [hst'] at hrest
        rw [if_neg (by simp [hs])]
        omega
    | false =>
      have hrest := ih st' s
      have hle := stepFilter_sourceCount_le st story s
      rw [hstep] at hle
      have hle2 : st.sourceCount s ≤ st'.sourceCount s := hle
      simp only [runFilter, hstep]
      omega

end RetrievalV1

namespace RetrievalV1

theorem freshnessCmp_le_iff (now : ℚ) (a b : Story) :
    freshnessCmp now a b ≤ 0 ↔ freshness now b ≤ freshness now a := by
  unfold freshnessCmp
  constructor <;> intro h <;> nlinarith

theorem freshnessLe_trans (now : ℚ) : ∀ a b c : Story,
    decide (freshnessCmp now a b ≤ 0) → decide (freshnessCmp now b c ≤ 0) →
    decide (freshnessCmp now a c ≤ 0) := by
  intro a b c hab hbc
  simp only [decide_eq_true_eq, freshnessCmp_le_iff] at *
  exact le_trans hbc hab

theorem freshnessLe_total (now : ℚ) : ∀ a b : Story,
    decide (freshnessCmp now a b ≤ 0) || decide (freshnessCmp now b a ≤ 0) := by
  intro a b
  rcases le_total (freshness now b) (freshness now a) with h | h <;>
    simp [freshnessCmp_le_iff, h]

/-- If no constraint can trip — fresh seen-sets, no duplicate ids or
normalized titles, and room under the per-source cap for every source —
the filter pass keeps every story. -/
theorem runFilter_eq_self : ∀ (l : List Story) (st : FilterState),
    (∀ d ∈ l, d.id ∉ st.seenIds) →
    (∀ d ∈ l, normalizedTitle d ∉ st.seenTitles) →
    (l.map Story.id).Nodup →
    (l.map normalizedTitle).Nodup →
    (∀ s, st.sourceCount s + l.countP (fun d => decide (sourceNameOf d = s)) ≤
      MAX_PER_SOURCE) →
    runFilter st l = l := by
  intro l
  induction l with
  | nil => intro st _ _ _ _ _; simp [runFilter]
  | cons story rest ih =>
    intro st hids htitles hnodupid hnoduptitle hcount
    have hlt : st.sourceCount (sourceNameOf story) < MAX_PER_SOURCE := by
      have := hcount (sourceNameOf story)
      rw [List.countP_cons] at this
      simp at this
      omega
    have hkeep : (stepFilter st story).1 = true := by
      unfold stepFilter
      rw [if_neg (hids story (List.mem_cons_self _ _)),
        if_neg (htitles story (List.mem_cons_self _ _)),
        if_neg (Nat.not_le.2 hlt),
        if_neg (by simp [BLOCKLISTED_SOURCES])]
    rcases hstep : stepFilter st story with ⟨keep, st'⟩
    rw [hstep] at hkeep
    subst hkeep
    obtain ⟨_, _, _, hids', htitles', hcnt⟩ := stepFilter_true (by rw [hstep])
    rw [hstep] at hids' htitles' hcnt
    have hids2 : st'.seenIds = story.id :: st.seenIds := hids'
    have htitles2 : st'.seenTitles = normalizedTitle story :: st.seenTitles := htitles'
    have hcnt2 : st'.sourceCount = fun x =>
        if x = sourceNameOf story then st.sourceCount (sourceNameOf story) + 1
        else st.sourceCount x := hcnt
    have hni : (∀ x ∈ rest, ¬ x.id = story.id) ∧ (rest.map Story.id).Nodup := by
      simpa using hnodupid
    have hnt : (∀ x ∈ rest, ¬ normalizedTitle x = normalizedTitle story) ∧
        (rest.map normalizedTitle).Nodup := by
      simpa using hnoduptitle
    simp only [runFilter, hstep]
    congr 1
    apply ih st'
    · intro d hd
      rw [hids2]
      simp only [List.mem_cons, not_or]
      exact ⟨hni.1 d hd, hids d (List.mem_cons_of_mem _ hd)⟩
    · intro d hd
      rw [htitles2]
      simp only [List.mem_cons, not_or]
      exact ⟨hnt.1 d hd, htitles d (List.mem_cons_of_mem _ hd)⟩
    · exact hni.2
    · exact hnt.2
    · intro s
      have hthis := hcount s
      rw [List.countP_cons] at hthis
      simp only [hcnt2]
      by_cases hs : s = sourceNameOf story
      · subst hs
        simp at hthis
        norm_num
        omega
      · rw [if_neg hs]
        simp only [decide_eq_true_eq] at hthis
        rw [if_neg (fun h => hs (by rw [h]))] at hthis
        omega

end RetrievalV1

namespace RetrievalV1

/-- The output of `applyBusinessConstraints` has pairwise distinct story
ids. -/
theorem applyBusinessConstraints_pairwise_id (now : ℚ) (l : List Story) :
    (applyBusinessConstraints now l).Pairwise (fun a b => a.id ≠ b.id) := by
  have hperm := List.mergeSort_perm (runFilter initialFilterState l)
    (fun a b => decide (freshnessCmp now a b ≤ 0))
  exact (hperm.pairwise_iff (fun {a b} h => Ne.symm h)).2
    (runFilter_pairwise_id l initialFilterState)

/-- The output of `applyBusinessConstraints` has pairwise distinct
normalized titles. -/
theorem applyBusinessConstraints_pairwise_title (now : ℚ) (l : List Story) :
    (applyBusinessConstraints now l).Pairwise
      (fun a b => normalizedTitle a ≠ normalizedTitle b) := by
  have hperm := List.mergeSort_perm (runFilter initialFilterState l)
    (fun a b => decide (freshnessCmp now a b ≤ 0))
  exact (hperm.pairwise_iff (fun {a b} h => Ne.symm h)).2
    (runFilter_pairwise_title l initialFilterState)

/-- CLAIM C4 (confirmed).  For every input list, every clock instant and
every source name `s`, the number of output documents of
`applyBusinessConstraints` whose normalized source name equals `s` is at
most `MAX_PER_SOURCE` (10), regardless of input size. -/
theorem applyBusinessConstraints_source_cap (now : ℚ) (l : List Story) (s : String) :
    (applyBusinessConstraints now l).countP
      (fun d => decide (sourceNameOf d = s)) ≤ MAX_PER_SOURCE := by
  have hperm := List.mergeSort_perm (runFilter initialFilterState l)
    (fun a b => decide (freshnessCmp now a b ≤ 0))
  rw [applyBusinessConstraints]
  rw [hperm.countP_eq]
  have := countP_runFilter_source l initialFilterState s
  simpa [initialFilterState] using this

/-- CLAIM C3, amended (dedup gives at-most-one, not exactly-one).  For
every input list, every id `x` and every normalized title `t`, the output
of `applyBusinessConstraints` contains at most one document with id `x`
and at most one document with normalized title `t`. -/
theorem applyBusinessConstraints_dedup_at_most_one (now : ℚ) (l : List Story)
    (x t : String) :
    (applyBusinessConstraints now l).countP (fun d => decide (d.id = x)) ≤ 1 ∧
    (applyBusinessConstraints now l).countP
      (fun d => decide (normalizedTitle d = t)) ≤ 1 :=
  ⟨countP_le_one_of_pairwise_ne (applyBusinessConstraints_pairwise_id now l) x,
   countP_le_one_of_pairwise_ne (applyBusinessConstraints_pairwise_title now l) t⟩

/-- CLAIM C3, counterexample.  The claim promises *exactly one* output
document per duplicated id.  But the filter records an id as seen before
the title check: here the second story's id `"B"` is recorded, the story
is then rejected as a title duplicate, and the third story (same id
`"B"`, fresh title) is rejected by the id guard — so an input with two
documents of id `"B"` yields an output with zero documents of id `"B"`. -/
theorem applyBusinessConstraints_dedup_not_exactly_one :
    ([⟨"A", "t", none, [], 0, none, none, none⟩,
      ⟨"B", "t", none, [], 0, none, none, none⟩,
      ⟨"B", "u", none, [], 0, none, none, none⟩] : List Story).countP
        (fun d => decide (d.id = "B")) = 2 ∧
    (applyBusinessConstraints 0
      [⟨"A", "t", none, [], 0, none, none, none⟩,
       ⟨"B", "t", none, [], 0, none, none, none⟩,
       ⟨"B", "u", none, [], 0, none, none, none⟩]).countP
        (fun d => decide (d.id = "B")) = 0 := by
  constructor
  · decide
  · rw [applyBusinessConstraints]
    rw [show runFilter initialFilterState
      [⟨"A", "t", none, [], 0, none, none, none⟩,
       ⟨"B", "t", none, [], 0, none, none, none⟩,
       ⟨"B", "u", none, [], 0, none, none, none⟩] =
      [⟨"A", "t", none, [], 0, none, none, none⟩] from by decide]
    rw [List.mergeSort_singleton]
    decide

/-- CLAIM C7 (confirmed).  `applyBusinessConstraints` evaluated at one
clock instant is idempotent: a second application removes nothing and
reorders nothing. -/
theorem applyBusinessConstraints_idempotent (now : ℚ) (l : List Story) :
    applyBusinessConstraints now (applyBusinessConstraints now l) =
      applyBusinessConstraints now l := by
  set le := fun a b => decide (freshnessCmp now a b ≤ 0) with hle
  have hperm := List.mergeSort_perm (runFilter initialFilterState l) le
  have hout : applyBusinessConstraints now l =
      (runFilter initialFilterState l).mergeSort le := rfl
  have hnodupid : ((applyBusinessConstraints now l).map Story.id).Nodup :=
    List.pairwise_map.2 (applyBusinessConstraints_pairwise_id now l)
  have hnoduptitle : ((applyBusinessConstraints now l).map normalizedTitle).Nodup :=
    List.pairwise_map.2 (applyBusinessConstraints_pairwise_title now l)
  have hfilter : runFilter initialFilterState (applyBusinessConstraints now l) =
      applyBusinessConstraints now l := by
    apply runFilter_eq_self
    · intro d _; simp [initialFilterState]
    · intro d _; simp [initialFilterState]
    · exact hnodupid
    · exact hnoduptitle
    · intro s
      have := applyBusinessConstraints_source_cap now l s
      simpa [initialFilterState] using this
  have hsorted : (applyBusinessConstraints now l).Pairwise (fun a b => le a b = true) := by
    rw [hout]
    exact List.sorted_mergeSort (freshnessLe_trans now) (freshnessLe_total now) _
  calc applyBusinessConstraints now (applyBusinessConstraints now l)
      = (runFilter initialFilterState (applyBusinessConstraints now l)).mergeSort le := rfl
    _ = (applyBusinessConstraints now l).mergeSort le := by rw [hfilter]
    _ = applyBusinessConstraints now l := List.mergeSort_of_sorted hsorted

end RetrievalV1

namespace RetrievalV1

theorem relativeScoreAt_bounds {pow08 : ℚ → ℚ}
    (hpow : ∀ q, 0 ≤ q → q ≤ 1 → 0 ≤ pow08 q ∧ pow08 q ≤ 1)
    {len index : ℕ} (hidx : index < len) :
    70 ≤ relativeScoreAt pow08 len index ∧ relativeScoreAt pow08 len index ≤ 100 := by
  unfold relativeScoreAt
  have hd : (1 : ℚ) ≤ max 1 ((len : ℚ) - 1) := le_max_left _ _
  have hdpos : (0 : ℚ) < max 1 ((len : ℚ) - 1) := by linarith
  have hnum : (index : ℚ) ≤ max 1 ((len : ℚ) - 1) := by
    have h1 : (index : ℚ) ≤ (len : ℚ) - 1 := by
      have : (index : ℚ) + 1 ≤ (len : ℚ) := by exact_mod_cast hidx
      linarith
    exact le_trans h1 (le_max_right _ _)
  have hpos : 0 ≤ (index : ℚ) / max 1 ((len : ℚ) - 1) :=
    div_nonneg (by positivity) hdpos.le
  have hle1 : (index : ℚ) / max 1 ((len : ℚ) - 1) ≤ 1 := (div_le_one hdpos).2 hnum
  obtain ⟨hc0, hc1⟩ := hpow _ hpos hle1
  unfold RELATIVE_SCORE_MAX RELATIVE_SCORE_MIN
  constructor
  · apply le_jsRound
    push_cast
    nlinarith
  · apply jsRound_le
    push_cast
    nlinarith

theorem fallbackScoreAt_bounds {pow08 : ℚ → ℚ}
    (hpow : ∀ q, 0 ≤ q → q ≤ 1 → 0 ≤ pow08 q ∧ pow08 q ≤ 1)
    {index : ℕ} (hidx : index ≤ 29) :
    70 ≤ fallbackScoreAt pow08 index ∧ fallbackScoreAt pow08 index ≤ 100 := by
  unfold fallbackScoreAt FINAL_RESULTS_LIMIT
  have hpos : 0 ≤ (index : ℚ) / ((30 : ℕ) - 1 : ℚ) := by positivity
  have hle1 : (index : ℚ) / ((30 : ℕ) - 1 : ℚ) ≤ 1 := by
    rw [div_le_one (by norm_num)]
    have : (index : ℚ) ≤ 29 := by exact_mod_cast hidx
    push_cast
    linarith
  obtain ⟨hc0, hc1⟩ := hpow _ hpos hle1
  unfold RELATIVE_SCORE_MAX RELATIVE_SCORE_MIN
  constructor
  · apply le_jsRound
    push_cast
    nlinarith
  · apply jsRound_le
    push_cast
    nlinarith

set_option maxHeartbeats 1000000 in
/-- CLAIM C10 (confirmed).  Every relevance score produced by `rerank` —
on the success path via positional relative re-scaling as well as on the
LLM-failure fallback path — lies in the band
`[RELATIVE_SCORE_MIN, RELATIVE_SCORE_MAX] = [70, 100]` (and is an integer
by construction, being the result of `Math.round`), for every curve
function behaving like `p ↦ Math.pow(p, 0.8)` on `[0, 1]`. -/
theorem rerank_scores_in_band {pow08 : ℚ → ℚ}
    (hpow : ∀ q, 0 ≤ q → q ≤ 1 → 0 ≤ pow08 q ∧ pow08 q ≤ 1)
    (oracle : UserPreferences → List Story → Except String (List Ranking))
    (userPrefs : UserPreferences) (stories : List Story) {r : RankedStory}
    (hr : r ∈ rerank pow08 oracle userPrefs stories) :
    (RELATIVE_SCORE_MIN : ℚ) ≤ (r.relevance_score : ℚ) ∧
      (r.relevance_score : ℚ) ≤ (RELATIVE_SCORE_MAX : ℚ) := by
  unfold RELATIVE_SCORE_MIN RELATIVE_SCORE_MAX
  have key : 70 ≤ r.relevance_score ∧ r.relevance_score ≤ 100 := by
    simp only [rerank] at hr
    rcases hmap : (chunkList PARALLEL_BATCH_SIZE (stories.take LLM_RANKING_LIMIT)).mapM
        (fun b => (oracle userPrefs b).map (mapBatchRankings b)) with bs | e
    · rw [hmap] at hr
      obtain ⟨j, a, hj, _, hb⟩ := mem_mapWithIndex hr
      rw [hb]
      have hlen : (stories.take LLM_RANKING_LIMIT).length ≤ 30 :=
        List.length_take_le LLM_RANKING_LIMIT stories
      exact fallbackScoreAt_bounds hpow (by omega)
    · rw [hmap] at hr
      obtain ⟨j, a, hj, _, hb⟩ := mem_mapWithIndex hr
      rw [hb]
      exact relativeScoreAt_bounds hpow hj
  constructor
  · exact_mod_cast key.1
  · exact_mod_cast key.2

end RetrievalV1

namespace RetrievalV1

/-- Witness for the C10 theorem: a concrete run through the fallback path
(the oracle fails), with the identity as the curve function. -/
theorem rerank_scores_in_band_witness :
    (RELATIVE_SCORE_MIN : ℚ) ≤ ((fallbackScoreAt (fun q => q) 0 : ℤ) : ℚ) ∧
      ((fallbackScoreAt (fun q => q) 0 : ℤ) : ℚ) ≤ (RELATIVE_SCORE_MAX : ℚ) := by
  have hmem : (⟨⟨"a", "t", none, [], 0, none, none, none⟩,
      fallbackScoreAt (fun q => q) 0,
      "This story appears relevant to your interests based on semantic similarity.",
      "Story was selected using semantic search but could not be analyzed in detail due to processing limitations."⟩ : RankedStory) ∈
        rerank (fun q => q) (fun _ _ => Except.error "oracle down")
          ⟨"Data Scientist", ["LLMs"], "RAG pipeline", ""⟩
          [⟨"a", "t", none, [], 0, none, none, none⟩] := by
    rw [show rerank (fun q => q) (fun _ _ => Except.error "oracle down")
        ⟨"Data Scientist", ["LLMs"], "RAG pipeline", ""⟩
        [⟨"a", "t", none, [], 0, none, none, none⟩] =
      [⟨⟨"a", "t", none, [], 0, none, none, none⟩,
        fallbackScoreAt (fun q => q) 0,
        "This story appears relevant to your interests based on semantic similarity.",
        "Story was selected using semantic search but could not be analyzed in detail due to processing limitations."⟩] from rfl]
    exact List.mem_singleton.2 rfl
  exact rerank_scores_in_band (fun q h1 h2 => ⟨h1, h2⟩)
    (fun _ _ => Except.error "oracle down")
    ⟨"Data Scientist", ["LLMs"], "RAG pipeline", ""⟩
    [⟨"a", "t", none, [], 0, none, none, none⟩] hmem

end RetrievalV1

namespace RetrievalV2

/-- CLAIM C5, counterexample.  The claim says a non-timeout error class
propagates immediately, without retry.  But the `throw error` for a
non-timeout store error is intercepted by the retry loop's own `catch`,
which sleeps one second and retries while attempts remain: here the store
fails on attempt 1 with the non-timeout Postgres code `42P01` and
succeeds on attempt 2, and `retrieveCandidateStories` returns that
success after a 1000 ms backoff instead of propagating the error. -/
theorem retrieveCandidateStories_nontimeout_retries :
    retrieveCandidateStories
      (fun attempt => if attempt = 1 then .err (some "42P01") else .ok [])
      (fun q => q) [] = (.ok [], 1000) := rfl

/-- CLAIM C5, amended (any error class is retried).  `retrieveCandidateStories`
makes up to `MAX_RETRIES = 2` total attempts: a success on attempt 1 is
returned with no backoff; any error on attempt 1 — timeout (`57014`) or
any other class — is followed by a fixed 1000 ms backoff and a second
attempt, whose success is returned and whose failure (of any class)
propagates as the retrieval error. -/
theorem retrieveCandidateStories_retry_policy (db : ℕ → DbResult)
    (sqrt : ℚ → ℚ) (userEmbedding : List ℚ) (limit : ℕ) :
    (∀ data, db 1 = .ok data →
      retrieveCandidateStories db sqrt userEmbedding limit =
        (.ok (postProcessStories sqrt userEmbedding limit data), 0)) ∧
    (∀ c data, db 1 = .err c → db 2 = .ok data →
      retrieveCandidateStories db sqrt userEmbedding limit =
        (.ok (postProcessStories sqrt userEmbedding limit data), 1000)) ∧
    (∀ c c', db 1 = .err c → db 2 = .err c' →
      retrieveCandidateStories db sqrt userEmbedding limit =
        (.error retryFailureMessage, 1000)) := by
  refine ⟨?_, ?_, ?_⟩
  · intro data h1
    simp [retrieveCandidateStories, retrieveLoop, MAX_RETRIES, h1]
  · intro c data h1 h2
    simp only [retrieveCandidateStories, retrieveLoop, MAX_RETRIES, h1, h2]
    split_ifs <;> simp_all
  · intro c c' h1 h2
    simp only [retrieveCandidateStories, retrieveLoop, MAX_RETRIES, h1, h2]
    split_ifs <;> simp_all

/-- Witness for the amended C5 theorem: both attempts fail (one timeout
code, one other code), and the function returns the retrieval error after
one 1000 ms backoff. -/
theorem retrieveCandidateStories_retry_policy_witness :
    retrieveCandidateStories
      (fun attempt => if attempt = 1 then .err (some "57014") else .err none)
      (fun q => q) [] 35 = (.error retryFailureMessage, 1000) :=
  (retrieveCandidateStories_retry_policy
    (fun attempt => if attempt = 1 then .err (some "57014") else .err none)
    (fun q => q) [] 35).2.2 (some "57014") none rfl rfl

end RetrievalV2

namespace RetrievalV2

theorem reduceOption_length_of_no_none : ∀ {xs : List (Option α)},
    (¬ xs.any Option.isNone) → xs.reduceOption.length = xs.length := by
  intro xs
  induction xs with
  | nil => intro _; simp
  | cons x t ih =>
    intro h
    cases x with
    | none => simp at h
    | some a =>
      simp only [List.any_cons, Bool.or_eq_true, not_or] at h
      simp only [List.reduceOption_cons_of_some, List.length_cons]
      rw [ih (by simpa using h.2)]

/-- A story embedding that the retrieval post-processing treats as
corrupt relative to a query vector of dimension `queryDim`: missing,
empty or unparsable (every unparsable component is NaN), containing a
NaN component, or dimensionally mismatched with the query. -/
def corruptEmbedding (queryDim : ℕ) (story : Story) : Prop :=
  match story.embedding with
  | none => True
  | some e =>
    (embNums e).length = 0 ∨ (∃ x ∈ embNums e, x = none) ∨
      (embNums e).length ≠ queryDim

/-- CLAIM C6 (confirmed).  A document whose embedding is missing,
unparsable, dimensionally mismatched with the query vector, or containing
NaN components is assigned similarity score 0 (never an error), survives
the mapping stage of retrieval post-processing, and is removed only by
the subsequent similarity-threshold filter. -/
theorem assignSimilarity_corrupt (sqrt : ℚ → ℚ) (userEmbedding : List ℚ)
    (story : Story) (h : corruptEmbedding userEmbedding.length story)
    (data : List Story) (limit : ℕ) (hmem : story ∈ data) :
    (assignSimilarity sqrt userEmbedding story).similarity_score = some 0 ∧
    assignSimilarity sqrt userEmbedding story ∈
      data.map (assignSimilarity sqrt userEmbedding) ∧
    assignSimilarity sqrt userEmbedding story ∉
      postProcessStories sqrt userEmbedding limit data := by
  have hzero : (assignSimilarity sqrt userEmbedding story).similarity_score = some 0 := by
    unfold corruptEmbedding at h
    cases hemb : story.embedding with
    | none => simp [assignSimilarity, hemb]
    | some e =>
      rw [hemb] at h
      by_cases hcond : (embNums e).length = 0 ∨ (embNums e).any Option.isNone
      · have hcond2 : embNums e = [] ∨ none ∈ embNums e := by
          rcases hcond with h0 | hany
          · exact Or.inl (List.length_eq_zero.1 h0)
          · right
            obtain ⟨x, hx, hxn⟩ := List.any_eq_true.1 hany
            cases x with
            | none => exact hx
            | some a => simp at hxn
        simp [assignSimilarity, hemb, hcond2]
      · push_neg at hcond
        have hnonone : ¬ (embNums e).any Option.isNone := by simpa using hcond.2
        have hdim : (embNums e).length ≠ userEmbedding.length := by
          rcases h with h | h | h
          · exact absurd h hcond.1
          · exfalso
            obtain ⟨x, hx, rfl⟩ := h
            exact hnonone (List.any_eq_true.2 ⟨none, hx, rfl⟩)
          · exact h
        have hlen : (embNums e).reduceOption.length = (embNums e).length :=
          reduceOption_length_of_no_none hnonone
        have hcos : calculateCosineSimilarity sqrt userEmbedding
            (embNums e).reduceOption = 0 := by
          rw [calculateCosineSimilarity, if_pos (by omega)]
        have hcond2 : ¬ (embNums e = [] ∨ none ∈ embNums e) := by
          simp only [not_or]
          constructor
          · intro h0
            exact hcond.1 (by simp [h0])
          · intro hn
            exact hnonone (List.any_eq_true.2 ⟨none, hn, rfl⟩)
        simp [assignSimilarity, hemb, hcond2, hcos]
  refine ⟨hzero, List.mem_map_of_mem _ hmem, ?_⟩
  intro hin
  have hin2 := List.mem_of_mem_take hin
  have := (List.mem_filter.1 hin2).2
  rw [hzero] at this
  simp only [Option.getD_some, decide_eq_true_eq, MATCH_THRESHOLD] at this
  norm_num at this

/-- Witness for the C6 theorem: the spec scenario — a string-encoded
3-vector against a query vector of dimension 2. -/
theorem assignSimilarity_corrupt_witness :
    (assignSimilarity (fun q => q) [1, 2]
      ⟨"s1", "T", none, [], 0, none, some (.str "[0.1, 0.2, 0.3]"), none⟩).similarity_score
        = some 0 ∧
    assignSimilarity (fun q => q) [1, 2]
      ⟨"s1", "T", none, [], 0, none, some (.str "[0.1, 0.2, 0.3]"), none⟩ ∈
      ([⟨"s1", "T", none, [], 0, none, some (.str "[0.1, 0.2, 0.3]"), none⟩] : List Story).map
        (assignSimilarity (fun q => q) [1, 2]) ∧
    assignSimilarity (fun q => q) [1, 2]
      ⟨"s1", "T", none, [], 0, none, some (.str "[0.1, 0.2, 0.3]"), none⟩ ∉
      postProcessStories (fun q => q) [1, 2] 35
        [⟨"s1", "T", none, [], 0, none, some (.str "[0.1, 0.2, 0.3]"), none⟩] :=
  assignSimilarity_corrupt (fun q => q) [1, 2]
    ⟨"s1", "T", none, [], 0, none, some (.str "[0.1, 0.2, 0.3]"), none⟩
    (Or.inr (Or.inr (by decide)))
    [⟨"s1", "T", none, [], 0, none, some (.str "[0.1, 0.2, 0.3]"), none⟩] 35
    (List.mem_singleton.2 rfl)

end RetrievalV2

namespace RetrievalV2

theorem rankCmp_le_iff (a b : ScoredStory) :
    rankCmp a b ≤ 0 ↔ (b.relevance_score < a.relevance_score ∨
      (b.relevance_score = a.relevance_score ∧ a.story.id ≤ b.story.id)) := by
  unfold rankCmp localeCompareQ
  by_cases h1 : b.relevance_score - a.relevance_score ≠ 0
  · rw [if_pos h1]
    constructor
    · intro h
      left
      rcases lt_or_eq_of_le (by linarith : b.relevance_score ≤ a.relevance_score) with h2 | h2
      · exact h2
      · exact absurd (by linarith) h1
    · rintro (h | ⟨h, _⟩)
      · linarith
      · exact absurd (by linarith) h1
  · rw [if_neg h1]
    push_neg at h1
    have heq : b.relevance_score = a.relevance_score := by linarith
    by_cases h2 : a.story.id < b.story.id
    · rw [if_pos h2]
      constructor
      · intro _
        exact Or.inr ⟨heq, le_of_lt h2⟩
      · intro _
        norm_num
    · rw [if_neg h2]
      by_cases h3 : b.story.id < a.story.id
      · rw [if_pos h3]
        constructor
        · intro h
          norm_num at h
        · rintro (h | ⟨_, h⟩)
          · exact absurd h (by rw [heq]; exact lt_irrefl _)
          · exact absurd h (not_le.2 h3)
      · rw [if_neg h3]
        constructor
        · intro _
          exact Or.inr ⟨heq, le_of_not_lt h3⟩
        · intro _
          norm_num

theorem rankLe_trans : ∀ a b c : ScoredStory,
    decide (rankCmp a b ≤ 0) → decide (rankCmp b c ≤ 0) →
    decide (rankCmp a c ≤ 0) := by
  intro a b c hab hbc
  simp only [decide_eq_true_eq, rankCmp_le_iff] at *
  rcases hab with hab | ⟨hab, hab'⟩ <;> rcases hbc with hbc | ⟨hbc, hbc'⟩
  · exact Or.inl (lt_trans hbc hab)
  · exact Or.inl (hbc ▸ hab)
  · exact Or.inl (hab ▸ hbc)
  · exact Or.inr ⟨hbc.trans hab, le_trans hab' hbc'⟩

theorem rankLe_total : ∀ a b : ScoredStory,
    decide (rankCmp a b ≤ 0) || decide (rankCmp b a ≤ 0) := by
  intro a b
  rcases lt_trichotomy a.relevance_score b.relevance_score with h | h | h
  · have hba : rankCmp b a ≤ 0 := (rankCmp_le_iff b a).2 (Or.inl h)
    simp [hba]
  · rcases le_total a.story.id b.story.id with h2 | h2
    · have hab : rankCmp a b ≤ 0 := (rankCmp_le_iff a b).2 (Or.inr ⟨h.symm, h2⟩)
      simp [hab]
    · have hba : rankCmp b a ≤ 0 := (rankCmp_le_iff b a).2 (Or.inr ⟨h, h2⟩)
      simp [hba]
  · have hab : rankCmp a b ≤ 0 := (rankCmp_le_iff a b).2 (Or.inl h)
    simp [hab]

/-- `sortAndLimit` yields a sequence sorted in non-increasing order of
relevance score. -/
theorem sortAndLimit_sorted (l : List ScoredStory) :
    (sortAndLimit l).Pairwise
      (fun a b => b.relevance_score ≤ a.relevance_score) := by
  unfold sortAndLimit
  have hs := List.sorted_mergeSort rankLe_trans rankLe_total l
  have ht := hs.sublist (List.take_sublist FINAL_RESULTS_LIMIT _)
  refine ht.imp ?_
  intro a b hab
  simp only [decide_eq_true_eq, rankCmp_le_iff] at hab
  rcases hab with h | ⟨h, _⟩
  · exact le_of_lt h
  · exact le_of_eq h

theorem sortAndLimit_length (l : List ScoredStory) :
    (sortAndLimit l).length ≤ FINAL_RESULTS_LIMIT :=
  List.length_take_le _ _

/-- CLAIM C1 (confirmed).  For every valid profile and all oracle
behaviors, when `retrievePersonalizedStories` succeeds its result has at
most `FINAL_RESULTS_LIMIT = 30` entries and is sorted in non-increasing
order of `relevance_score`. -/
theorem retrievePersonalizedStories_bounded_sorted
    (embedOracle : UserPreferences → Except String (List ℚ))
    (db : ℕ → DbResult) (sqrt : ℚ → ℚ)
    (llmOracle : UserPreferences → List Story → Except String (List Ranking))
    (now : ℚ) (userPrefs : UserPreferences) (l : List PersonalizedStory)
    (_hrole : userPrefs.role ≠ "") (_hinterests : userPrefs.interests ≠ [])
    (_hprojects : userPrefs.projects ≠ "")
    (h : retrievePersonalizedStories embedOracle db sqrt llmOracle now userPrefs =
      .ok l) :
    l.length ≤ FINAL_RESULTS_LIMIT ∧
    l.Pairwise (fun a b => b.relevance_score ≤ a.relevance_score) := by
  unfold retrievePersonalizedStories at h
  cases hge : generateUserEmbedding embedOracle userPrefs with
  | error m => rw [hge] at h; exact absurd h (by simp)
  | ok emb =>
    rw [hge] at h
    dsimp only [] at h
    cases hdb : (retrieveCandidateStories db sqrt emb).1 with
    | error m =>
      rw [hdb] at h
      dsimp only [] at h
      exact absurd h (by simp)
    | ok cands =>
      rw [hdb] at h
      dsimp only [] at h
      by_cases hempty : cands.length = 0
      · rw [if_pos hempty] at h
        have : ([] : List PersonalizedStory) = l := by
          simpa using h
        rw [← this]
        simp
      · rw [if_neg hempty] at h
        have hl : l = (calculateRelevanceScores llmOracle now userPrefs cands).map
            (fun result => { story := result.story
                             relevance_score := result.relevance_score
                             time := getRelativeTime now result.story.published_at }) := by
          have := h
          simp only [Except.ok.injEq] at this
          exact this.symm
        rw [hl]
        have hcrs : calculateRelevanceScores llmOracle now userPrefs cands =
            sortAndLimit ((((chunkList LLM_BATCH_SIZE cands).map (fun batch =>
              match llmOracle userPrefs batch with
              | .ok rankings => rankings
              | .error _ => [])).flatten.filter (fun r => r.story_id ≠ "")).filterMap
              (fun ranking =>
                match lastLookup Story.id cands ranking.story_id with
                | none => none
                | some story =>
                  some { story := story
                         relevance_score :=
                           scoreStory now ranking.relevance_score story })) := rfl
        constructor
        · rw [List.length_map, hcrs]
          exact sortAndLimit_length _
        · rw [List.pairwise_map]
          rw [hcrs]
          exact sortAndLimit_sorted _

/-- Witness for the C1 theorem: a concrete run in which the store returns
no candidates and the pipeline succeeds with the empty (hence bounded and
sorted) list. -/
theorem retrievePersonalizedStories_bounded_sorted_witness :
    (([] : List PersonalizedStory)).length ≤ FINAL_RESULTS_LIMIT ∧
    (([] : List PersonalizedStory)).Pairwise
      (fun a b => b.relevance_score ≤ a.relevance_score) :=
  retrievePersonalizedStories_bounded_sorted
    (fun _ => .ok [1]) (fun _ => .ok []) (fun q => q)
    (fun _ _ => .error "down") 0
    ⟨"Data Scientist", ["LLMs"], "RAG pipeline", ""⟩ []
    (by decide) (by decide) (by decide) rfl

end RetrievalV2

namespace RetrievalV2

/-- CLAIM C9 (confirmed).  The final ordering of the scoring stage is
deterministic: the sort-and-truncate step depends only on the multiset of
scored entries, not on the order in which batch results arrived — given
pairwise distinct document ids, any two permutations of the scored
entries produce the identical output sequence, because ties in
`relevance_score` are broken by the lexicographic document id. -/
theorem sortAndLimit_deterministic (l₁ l₂ : List ScoredStory)
    (hperm : l₁.Perm l₂)
    (hids : (l₁.map (fun e => e.story.id)).Nodup) :
    sortAndLimit l₁ = sortAndLimit l₂ := by
  unfold sortAndLimit
  congr 1
  apply sorted_perm_eq
    ((List.mergeSort_perm l₁ _).trans (hperm.trans (List.mergeSort_perm l₂ _).symm))
    (List.sorted_mergeSort rankLe_trans rankLe_total l₁)
    (List.sorted_mergeSort rankLe_trans rankLe_total l₂)
  intro a b ha hb hab hba
  have ha2 : a ∈ l₁ := List.mem_mergeSort.1 ha
  have hb2 : b ∈ l₁ := List.mem_mergeSort.1 hb
  simp only [decide_eq_true_eq, rankCmp_le_iff] at hab hba
  have hid : a.story.id = b.story.id := by
    rcases hab with h | ⟨h, h'⟩ <;> rcases hba with h2 | ⟨h2, h2'⟩
    · exact absurd (lt_trans h h2) (lt_irrefl _)
    · exact absurd (h2 ▸ h) (lt_irrefl _)
    · exact absurd (h ▸ h2) (lt_irrefl _)
    · exact le_antisymm h' h2'
  exact List.inj_on_of_nodup_map hids ha2 hb2 hid

/-- Witness for the C9 theorem: two scored entries with equal scores,
presented in both orders. -/
theorem sortAndLimit_deterministic_witness :
    sortAndLimit
      [⟨⟨"a", "t", none, [], 0, none, none, none⟩, 80⟩,
       ⟨⟨"b", "u", none, [], 0, none, none, none⟩, 80⟩] =
    sortAndLimit
      [⟨⟨"b", "u", none, [], 0, none, none, none⟩, 80⟩,
       ⟨⟨"a", "t", none, [], 0, none, none, none⟩, 80⟩] :=
  sortAndLimit_deterministic _ _
    (List.Perm.swap _ _ [])
    (by decide)

end RetrievalV2

namespace RetrievalV2

theorem recencyBoost_nonneg (now : ℚ) (story : Story) :
    0 ≤ recencyBoost now story := by
  unfold recencyBoost
  apply le_jsRound
  push_cast
  exact le_max_left _ _

theorem recencyBoost_le_five (now : ℚ) (story : Story)
    (h : story.published_at ≤ now) : recencyBoost now story ≤ 5 := by
  unfold recencyBoost FRESHNESS_DECAY_DAYS RECENCY_BOOST_POINTS
  apply jsRound_le
  have hage : 0 ≤ (now - story.published_at) / (1000 * 60 * 60 * 24) := by
    apply div_nonneg (by linarith) (by norm_num)
  push_cast
  apply max_le (by norm_num)
  nlinarith

theorem recencyBoost_zero_after_window (now : ℚ) (story : Story)
    (h : FRESHNESS_DECAY_DAYS * (1000 * 60 * 60 * 24) ≤ now - story.published_at) :
    recencyBoost now story = 0 := by
  unfold recencyBoost
  unfold FRESHNESS_DECAY_DAYS at h ⊢
  unfold RECENCY_BOOST_POINTS
  have hage : (14 : ℚ) ≤ (now - story.published_at) / (1000 * 60 * 60 * 24) := by
    rw [le_div_iff₀ (by norm_num)]
    linarith
  have hdecay : (1 - (now - story.published_at) / (1000 * 60 * 60 * 24) / 14) * 5 ≤ 0 := by
    have : (now - story.published_at) / (1000 * 60 * 60 * 24) / 14 ≥ 1 := by
      rw [ge_iff_le, le_div_iff₀ (by norm_num)]
      linarith
    nlinarith
  dsimp only []
  rw [max_eq_left hdecay]
  unfold jsRound
  norm_num

theorem mem_of_lastLookup {key : α → String} {l : List α} {k : String} {x : α}
    (h : lastLookup key l k = some x) : x ∈ l := by
  unfold lastLookup at h
  exact List.mem_reverse.1 (List.mem_of_find?_eq_some h)

/-- A successful `lastLookup` returns an element whose key is the looked-up
string. -/
theorem key_of_lastLookup {key : α → String} {l : List α} {k : String} {x : α}
    (h : lastLookup key l k = some x) : key x = k := by
  unfold lastLookup at h
  have := List.find?_some h
  simpa using this

/-- Every entry of the scoring stage's output originates from a ranking
`r` inside a *successful* oracle response for one of the batches: the
ranking's id is the entry's story id, the story was resolved through the
id map, and the entry's score is `scoreStory` of the oracle's score for
that very ranking. -/
theorem mem_calculateRelevanceScores
    (oracle : UserPreferences → List Story → Except String (List Ranking))
    (now : ℚ) (userPrefs : UserPreferences) (stories : List Story)
    {e : ScoredStory}
    (he : e ∈ calculateRelevanceScores oracle now userPrefs stories) :
    ∃ batch ∈ chunkList LLM_BATCH_SIZE stories, ∃ rankings,
      oracle userPrefs batch = .ok rankings ∧ ∃ r ∈ rankings,
        r.story_id = e.story.id ∧
        lastLookup Story.id stories r.story_id = some e.story ∧
        e.relevance_score = scoreStory now r.relevance_score e.story := by
  simp only [calculateRelevanceScores] at he
  unfold sortAndLimit at he
  have he2 := List.mem_mergeSort.1 (List.mem_of_mem_take he)
  obtain ⟨r, hr, hmatch⟩ := List.mem_filterMap.1 he2
  have hr2 := List.mem_of_mem_filter hr
  obtain ⟨rs, hrs, hrrs⟩ := List.mem_flatten.1 hr2
  obtain ⟨batch, hbatch, hfetch⟩ := List.mem_map.1 hrs
  cases horacle : oracle userPrefs batch with
  | error msg =>
    rw [horacle] at hfetch
    dsimp only [] at hfetch
    rw [← hfetch] at hrrs
    exact absurd hrrs (List.not_mem_nil r)
  | ok rankings =>
    rw [horacle] at hfetch
    dsimp only [] at hfetch
    cases hl : lastLookup Story.id stories r.story_id with
    | none => rw [hl] at hmatch; simp at hmatch
    | some story =>
      rw [hl] at hmatch
      simp only [Option.some.injEq] at hmatch
      have hestory : e.story = story := by rw [← hmatch]
      refine ⟨batch, hbatch, rankings, horacle, r, by rw [hfetch]; exact hrrs, ?_, ?_, ?_⟩
      · rw [hestory]
        exact (key_of_lastLookup hl).symm
      · rw [hestory]
        exact hl
      · rw [← hmatch]

/-- CLAIM C8, amended (the 5-point cap needs `publishedAt ≤ now`).  Every
scored document's `relevance_score` equals the oracle's returned score
for that document (the ranking with the document's id inside a successful
batch response) plus the recency bonus, with the sum clamped to
`[1, 100]`; the bonus is always at least 0, decays to 0 past the
`FRESHNESS_DECAY_DAYS` window, and — for documents not published in the
future — is at most `RECENCY_BOOST_POINTS = 5`.  (For a future-dated
document the code does not cap the bonus at 5; see the counterexample.) -/
theorem calculateRelevanceScores_composite_score
    (oracle : UserPreferences → List Story → Except String (List Ranking))
    (now : ℚ) (userPrefs : UserPreferences) (stories : List Story)
    (hpub : ∀ st ∈ stories, st.published_at ≤ now)
    {e : ScoredStory}
    (he : e ∈ calculateRelevanceScores oracle now userPrefs stories) :
    (∃ batch ∈ chunkList LLM_BATCH_SIZE stories, ∃ rankings,
      oracle userPrefs batch = .ok rankings ∧ ∃ r ∈ rankings,
        r.story_id = e.story.id ∧
        lastLookup Story.id stories r.story_id = some e.story ∧
        e.relevance_score =
          max 1 (min 100 (r.relevance_score + (recencyBoost now e.story : ℚ)))) ∧
    0 ≤ recencyBoost now e.story ∧
    (recencyBoost now e.story : ℚ) ≤ RECENCY_BOOST_POINTS ∧
    (FRESHNESS_DECAY_DAYS * (1000 * 60 * 60 * 24) ≤ now - e.story.published_at →
      recencyBoost now e.story = 0) := by
  obtain ⟨batch, hbatch, rankings, horacle, r, hrmem, hid, hl, hscore⟩ :=
    mem_calculateRelevanceScores oracle now userPrefs stories he
  have hemem : e.story ∈ stories := mem_of_lastLookup hl
  refine ⟨⟨batch, hbatch, rankings, horacle, r, hrmem, hid, hl, ?_⟩,
    recencyBoost_nonneg now e.story, ?_, ?_⟩
  · rw [hscore]
    rfl
  · have h5 : recencyBoost now e.story ≤ 5 :=
      recencyBoost_le_five now e.story (hpub e.story hemem)
    unfold RECENCY_BOOST_POINTS
    exact_mod_cast h5
  · exact recencyBoost_zero_after_window now e.story

end RetrievalV2

namespace RetrievalV2

/-- CLAIM C8, counterexample.  For a story published 14 days in the
future (`publishedAt = now + 14 days`), the recency bonus evaluates to 10
— above the claimed 5-point cap — and the scored document's final score
60 cannot be written as the clamp of the oracle score 50 plus any bonus
in `[0, 5]`. -/
theorem calculateRelevanceScores_boost_above_cap :
    recencyBoost 0 ⟨"a", "t", none, [], 1209600000, none, none, none⟩ = 10 ∧
    calculateRelevanceScores
      (fun _ batch => .ok (batch.map (fun st => ⟨st.id, 50⟩)))
      0 ⟨"Data Scientist", ["LLMs"], "RAG pipeline", ""⟩
      [⟨"a", "t", none, [], 1209600000, none, none, none⟩] =
      [⟨⟨"a", "t", none, [], 1209600000, none, none, none⟩, 60⟩] ∧
    (∀ b : ℚ, 0 ≤ b → b ≤ 5 → max 1 (min 100 (50 + b)) ≠ (60 : ℚ)) := by
  have hboost : recencyBoost 0
      ⟨"a", "t", none, [], 1209600000, none, none, none⟩ = 10 := by
    unfold recencyBoost FRESHNESS_DECAY_DAYS RECENCY_BOOST_POINTS jsRound
    norm_num
  refine ⟨hboost, ?_, ?_⟩
  · have hscore : scoreStory 0 50
        ⟨"a", "t", none, [], 1209600000, none, none, none⟩ = 60 := by
      unfold scoreStory
      rw [hboost]
      norm_num
    simp [calculateRelevanceScores, chunkList, chunkListGo, lastLookup,
      sortAndLimit, List.mergeSort_singleton, hscore, LLM_BATCH_SIZE,
      FINAL_RESULTS_LIMIT]
  · intro b hb0 hb5 heq
    have h1 : (1 : ℚ) ≤ 50 + b := by linarith
    have h2 : 50 + b ≤ (100 : ℚ) := by linarith
    rw [min_eq_right h2, max_eq_right h1] at heq
    linarith

/-- Witness for the amended C8 theorem: a concrete run with a story
published exactly at the evaluation instant and an oracle returning score
50 for every story of a batch. -/
theorem calculateRelevanceScores_composite_score_witness :
    (∃ batch ∈ chunkList LLM_BATCH_SIZE [⟨"a", "t", none, [], 0, none, none, none⟩], ∃ rankings,
      (fun (_ : UserPreferences) (batch : List Story) =>
      (Except.ok (batch.map (fun st => (⟨st.id, 50⟩ : Ranking))) :
        Except String (List Ranking)))
        ⟨"Data Scientist", ["LLMs"], "RAG pipeline", ""⟩ batch = .ok rankings ∧ ∃ r ∈ rankings,
        r.story_id = (⟨⟨"a", "t", none, [], 0, none, none, none⟩, scoreStory 0 50 ⟨"a", "t", none, [], 0, none, none, none⟩⟩ : ScoredStory).story.id ∧
        lastLookup Story.id [⟨"a", "t", none, [], 0, none, none, none⟩] r.story_id = some (⟨⟨"a", "t", none, [], 0, none, none, none⟩, scoreStory 0 50 ⟨"a", "t", none, [], 0, none, none, none⟩⟩ : ScoredStory).story ∧
        (⟨⟨"a", "t", none, [], 0, none, none, none⟩, scoreStory 0 50 ⟨"a", "t", none, [], 0, none, none, none⟩⟩ : ScoredStory).relevance_score =
          max 1 (min 100 (r.relevance_score +
            (recencyBoost 0 (⟨⟨"a", "t", none, [], 0, none, none, none⟩, scoreStory 0 50 ⟨"a", "t", none, [], 0, none, none, none⟩⟩ : ScoredStory).story : ℚ)))) ∧
    0 ≤ recencyBoost 0 (⟨⟨"a", "t", none, [], 0, none, none, none⟩, scoreStory 0 50 ⟨"a", "t", none, [], 0, none, none, none⟩⟩ : ScoredStory).story ∧
    (recencyBoost 0 (⟨⟨"a", "t", none, [], 0, none, none, none⟩, scoreStory 0 50 ⟨"a", "t", none, [], 0, none, none, none⟩⟩ : ScoredStory).story : ℚ) ≤ RECENCY_BOOST_POINTS ∧
    (FRESHNESS_DECAY_DAYS * (1000 * 60 * 60 * 24) ≤
        0 - (⟨⟨"a", "t", none, [], 0, none, none, none⟩, scoreStory 0 50 ⟨"a", "t", none, [], 0, none, none, none⟩⟩ : ScoredStory).story.published_at →
      recencyBoost 0 (⟨⟨"a", "t", none, [], 0, none, none, none⟩, scoreStory 0 50 ⟨"a", "t", none, [], 0, none, none, none⟩⟩ : ScoredStory).story = 0) := by
  have hmem : (⟨⟨"a", "t", none, [], 0, none, none, none⟩, scoreStory 0 50 ⟨"a", "t", none, [], 0, none, none, none⟩⟩ : ScoredStory) ∈
      calculateRelevanceScores
        (fun (_ : UserPreferences) (batch : List Story) =>
      (Except.ok (batch.map (fun st => (⟨st.id, 50⟩ : Ranking))) :
        Except String (List Ranking)))
        0 ⟨"Data Scientist", ["LLMs"], "RAG pipeline", ""⟩
        [⟨"a", "t", none, [], 0, none, none, none⟩] := by
    rw [show calculateRelevanceScores
        (fun (_ : UserPreferences) (batch : List Story) =>
      (Except.ok (batch.map (fun st => (⟨st.id, 50⟩ : Ranking))) :
        Except String (List Ranking)))
        0 ⟨"Data Scientist", ["LLMs"], "RAG pipeline", ""⟩
        [⟨"a", "t", none, [], 0, none, none, none⟩] =
      [(⟨⟨"a", "t", none, [], 0, none, none, none⟩, scoreStory 0 50 ⟨"a", "t", none, [], 0, none, none, none⟩⟩ : ScoredStory)] from by
        simp [calculateRelevanceScores, chunkList, chunkListGo, lastLookup,
          sortAndLimit, List.mergeSort_singleton, LLM_BATCH_SIZE,
          FINAL_RESULTS_LIMIT]]
    exact List.mem_singleton.2 rfl
  exact calculateRelevanceScores_composite_score
    (fun (_ : UserPreferences) (batch : List Story) =>
      (Except.ok (batch.map (fun st => (⟨st.id, 50⟩ : Ranking))) :
        Except String (List Ranking)))
    0 ⟨"Data Scientist", ["LLMs"], "RAG pipeline", ""⟩
    [⟨"a", "t", none, [], 0, none, none, none⟩]
    (by intro st hst; simp at hst; rw [hst]) hmem

end RetrievalV2

namespace RetrievalV2

/-- CLAIM C2 (code bug).  The claim — and the similarity-fallback branch
of `calculateRelevanceScores`, whose own log message announces a
fallback ranking — expect total oracle failure to yield a non-empty
fallback-ranked list.  But every batch failure is absorbed by the
per-batch `catch` (contributing an empty ranking list), so no exception
ever reaches the enclosing `try/catch` and the similarity fallback is
unreachable from oracle failures: given a non-empty candidate set and an
oracle that fails for every batch, the pipeline succeeds with the EMPTY
list. -/
theorem retrievePersonalizedStories_all_batches_fail_empty :
    (retrieveCandidateStories (fun _ => .ok
        [⟨"a", "T", none, [], 0, none, some (.arr [some 1]), none⟩])
      (fun q => q) [1]).1 = .ok
        [⟨"a", "T", none, [], 0, none, some (.arr [some 1]), some 1⟩] ∧
    calculateRelevanceScores (fun _ _ => .error "LLM unavailable") 0
      ⟨"Data Scientist", ["LLMs"], "RAG pipeline", ""⟩
      [⟨"a", "T", none, [], 0, none, some (.arr [some 1]), some 1⟩] = [] ∧
    retrievePersonalizedStories (fun _ => .ok [1])
      (fun _ => .ok [⟨"a", "T", none, [], 0, none, some (.arr [some 1]), none⟩])
      (fun q => q) (fun _ _ => .error "LLM unavailable") 0
      ⟨"Data Scientist", ["LLMs"], "RAG pipeline", ""⟩ = .ok [] := by
  have hretrieve : (retrieveCandidateStories (fun _ => .ok
        [⟨"a", "T", none, [], 0, none, some (.arr [some 1]), none⟩])
      (fun q => q) [1]).1 = .ok
        [⟨"a", "T", none, [], 0, none, some (.arr [some 1]), some 1⟩] := by
    simp only [retrieveCandidateStories, retrieveLoop, MAX_RETRIES]
    simp [postProcessStories, assignSimilarity, embNums,
      calculateCosineSimilarity, MATCH_THRESHOLD, TOP_K_CANDIDATES]
    norm_num
  have hscores : calculateRelevanceScores (fun _ _ => .error "LLM unavailable") 0
      ⟨"Data Scientist", ["LLMs"], "RAG pipeline", ""⟩
      [⟨"a", "T", none, [], 0, none, some (.arr [some 1]), some 1⟩] = [] := by
    simp [calculateRelevanceScores, chunkList, chunkListGo, LLM_BATCH_SIZE,
      sortAndLimit, List.mergeSort_nil]
  refine ⟨hretrieve, hscores, ?_⟩
  unfold retrievePersonalizedStories generateUserEmbedding
  dsimp only []
  rw [hretrieve]
  dsimp only []
  rw [if_neg (by norm_num)]
  rw [hscores]
  rfl

end RetrievalV2
